import Mathlib

/-!
Shallow embedding of the Monta API client
(`custom_components/monta/api.py` and `custom_components/monta/const.py`):
token lifecycle, request execution with rate limiting, and response
post-processing.  Timestamps (`datetime` values) are modelled as integral
seconds; Python `None` is modelled by `Option`.
-/

namespace Monta

/-- JSON values as parsed by `response.json()`: Python dicts become
association lists and JSON `null` becomes Python `None` (`Json.null`). -/
inductive Json where
  | null
  | bool (b : Bool)
  | int (n : Int)
  | str (s : String)
  | arr (items : List Json)
  | obj (entries : List (String × Json))
deriving Repr

/-- `PREEMPTIVE_REFRESH_TTL_IN_SECONDS` from `const.py`. -/
def PREEMPTIVE_REFRESH_TTL_IN_SECONDS : Int := 300

/-- `SHORT_RETRY_THRESHOLD_SECONDS` from `const.py`. -/
def SHORT_RETRY_THRESHOLD_SECONDS : Int := 2

/-- The local constant `max_short_retries` inside `_api_wrapper`. -/
def max_short_retries : Nat := 2

/-- `PRIVATE_INFORMATION` from `api.py`. -/
def PRIVATE_INFORMATION : List String :=
  ["accessToken", "refreshToken", "serialNumber", "latitude", "longitude",
   "address1", "address2", "address3"]

/-- The in-memory preference dict `self._prefs` holding the token state.
The code saves the whole dict to the store after every mutation, so this
models both the in-memory and the persisted state. -/
structure Prefs where
  access_token : Option String
  access_expire_time : Option Int
  refresh_token : Option String
  refresh_expire_time : Option Int
deriving Repr, DecidableEq

/-- Parsed body of a `auth/token` / `auth/refresh` response.  The expiration
fields model `dt_util.parse_datetime(...)`, which yields `None` when the
server-supplied string does not parse. -/
structure TokenResponse where
  accessToken : String
  accessTokenExpirationDate : Option Int
  refreshToken : String
  refreshTokenExpirationDate : Option Int
deriving Repr, DecidableEq

/-- The exception taxonomy of `api.py`, with the payload carried by
`MontaApiClientRateLimitError`. -/
inductive MontaApiClientErrorKind where
  | authenticationError
  | communicationError
  | rateLimitError (retry_after_seconds : Option Int) (reset_at : Option Int)
      (remaining : Option Int)
  | genericError
deriving Repr, DecidableEq

/-- Which token endpoint a run of `async_get_access_token` hits. -/
inductive EndpointCall where
  | authToken
  | authRefresh
deriving Repr, DecidableEq

/-- Python truthiness of an optional string (`not self._prefs[key]`):
`None` and the empty string are falsy. -/
def pyTruthy : Option String → Bool
  | none => false
  | some s => !s.isEmpty

/-- `_is_access_token_valid`: token present (truthy), expiry present, and
`utcnow() < expiry - PREEMPTIVE_REFRESH_TTL`. -/
def is_access_token_valid (prefs : Prefs) (now : Int) : Bool :=
  if !pyTruthy prefs.access_token then false
  else
    match prefs.access_expire_time with
    | none => false
    | some expire_time =>
        decide (now < expire_time - PREEMPTIVE_REFRESH_TTL_IN_SECONDS)

/-- `_is_refresh_token_valid`, same shape as `_is_access_token_valid`. -/
def is_refresh_token_valid (prefs : Prefs) (now : Int) : Bool :=
  if !pyTruthy prefs.refresh_token then false
  else
    match prefs.refresh_expire_time with
    | none => false
    | some expire_time =>
        decide (now < expire_time - PREEMPTIVE_REFRESH_TTL_IN_SECONDS)

/-- `_async_update_preferences`: each field is overwritten only when the new
value is not `None`; the updated dict is then saved to the store. -/
def async_update_preferences (prefs : Prefs) (access_token : Option String)
    (access_token_expiration : Option Int) (refresh_token : Option String)
    (refresh_token_expiration : Option Int) : Prefs :=
  { access_token :=
      match access_token with
      | some t => some t
      | none => prefs.access_token
    access_expire_time :=
      match access_token_expiration with
      | some t => some t
      | none => prefs.access_expire_time
    refresh_token :=
      match refresh_token with
      | some t => some t
      | none => prefs.refresh_token
    refresh_expire_time :=
      match refresh_token_expiration with
      | some t => some t
      | none => prefs.refresh_expire_time }

/-- The preference update performed by `async_authenticate` and by the
refresh branch of `async_get_access_token` from a token-endpoint response. -/
def apply_token_response (prefs : Prefs) (r : TokenResponse) : Prefs :=
  async_update_preferences prefs (some r.accessToken) r.accessTokenExpirationDate
    (some r.refreshToken) r.refreshTokenExpirationDate

/-- `async_load_preferences`: the dict loaded from the store, or an
all-`None` dict when the store is empty. -/
def async_load_preferences (stored : Option Prefs) : Prefs :=
  match stored with
  | some p => p
  | none => ⟨none, none, none, none⟩

/-- `async_get_access_token`, for a loaded token state.  The two network
calls it may perform are supplied as oracles: `refreshResp` is the outcome
of the `auth/refresh` wrapper call, `authResp` the outcome of the
`auth/token` call made through `async_authenticate`; an `Except.error`
oracle models the wrapper raising.  The third component records the token
endpoints actually called, in order. -/
def async_get_access_token (prefs : Prefs) (now : Int)
    (refreshResp authResp : Except MontaApiClientErrorKind TokenResponse) :
    Except MontaApiClientErrorKind String × Prefs × List EndpointCall :=
  if is_access_token_valid prefs now then
    (Except.ok (prefs.access_token.getD ""), prefs, [])
  else if is_refresh_token_valid prefs now then
    match refreshResp with
    | Except.ok r =>
        (Except.ok r.accessToken, apply_token_response prefs r,
          [EndpointCall.authRefresh])
    | Except.error e => (Except.error e, prefs, [EndpointCall.authRefresh])
  else
    match authResp with
    | Except.ok r =>
        (Except.ok r.accessToken, apply_token_response prefs r,
          [EndpointCall.authToken])
    | Except.error e => (Except.error e, prefs, [EndpointCall.authToken])

/-- Following the spec's words: a token is usable when it is present (a
non-empty token string is stored) and `expiry − now` exceeds
`PREEMPTIVE_REFRESH_TTL`. -/
def spec_token_usable (token : Option String) (expiry : Option Int)
    (now : Int) : Bool :=
  match token, expiry with
  | some s, some t =>
      !s.isEmpty && decide (t - now > PREEMPTIVE_REFRESH_TTL_IN_SECONDS)
  | _, _ => false

/-- The spec's three-way decision procedure for `get_access_token`: cached
fast path with no call, else one refresh call updating both pairs, else one
full authentication call persisting the new pair (errors propagate). -/
def get_access_token_spec (prefs : Prefs) (now : Int)
    (refreshResp authResp : Except MontaApiClientErrorKind TokenResponse) :
    Except MontaApiClientErrorKind String × Prefs × List EndpointCall :=
  if spec_token_usable prefs.access_token prefs.access_expire_time now then
    (Except.ok (prefs.access_token.getD ""), prefs, [])
  else if spec_token_usable prefs.refresh_token prefs.refresh_expire_time now then
    match refreshResp with
    | Except.ok r =>
        (Except.ok r.accessToken, apply_token_response prefs r,
          [EndpointCall.authRefresh])
    | Except.error e => (Except.error e, prefs, [EndpointCall.authRefresh])
  else
    match authResp with
    | Except.ok r =>
        (Except.ok r.accessToken, apply_token_response prefs r,
          [EndpointCall.authToken])
    | Except.error e => (Except.error e, prefs, [EndpointCall.authToken])

theorem access_valid_eq_spec (prefs : Prefs) (now : Int) :
    is_access_token_valid prefs now =
      spec_token_usable prefs.access_token prefs.access_expire_time now := by
  unfold is_access_token_valid spec_token_usable pyTruthy
  cases prefs.access_token with
  | none => rfl
  | some s =>
    cases prefs.access_expire_time with
    | none => simp
    | some t =>
      by_cases hs : s.isEmpty
      · simp [hs]
      · simp [hs, decide_eq_decide]
        omega

theorem refresh_valid_eq_spec (prefs : Prefs) (now : Int) :
    is_refresh_token_valid prefs now =
      spec_token_usable prefs.refresh_token prefs.refresh_expire_time now := by
  unfold is_refresh_token_valid spec_token_usable pyTruthy
  cases prefs.refresh_token with
  | none => rfl
  | some s =>
    cases prefs.refresh_expire_time with
    | none => simp
    | some t =>
      by_cases hs : s.isEmpty
      · simp [hs]
      · simp [hs, decide_eq_decide]
        omega

/-- **C1.**  For every loaded token state, `async_get_access_token` follows
the spec's three-way decision procedure: cached token returned unchanged
with no HTTP call when the access token is present and more than
`PREEMPTIVE_REFRESH_TTL` from expiry; otherwise exactly one refresh call
updating both token/expiry pairs when the refresh token is still usable;
otherwise one full client-credential authentication persisting the new
pair. -/
theorem c1_get_access_token_three_way (prefs : Prefs) (now : Int)
    (refreshResp authResp : Except MontaApiClientErrorKind TokenResponse) :
    async_get_access_token prefs now refreshResp authResp =
      get_access_token_spec prefs now refreshResp authResp := by
  unfold async_get_access_token get_access_token_spec
  rw [access_valid_eq_spec, refresh_valid_eq_spec]

/-- The TokenState pairing invariant: a token and its expiry are set
together or unset together, for both the access and the refresh pair. -/
def pairs_consistent (p : Prefs) : Prop :=
  p.access_token.isSome = p.access_expire_time.isSome ∧
  p.refresh_token.isSome = p.refresh_expire_time.isSome

/-- **C7** (amended).  Token-state mutations preserve the pairing
invariant under the conditions the counterexample forces: loading from an
empty store establishes it, loading a consistent stored dict keeps it, and
the update applied by `async_authenticate` / the refresh branch keeps it
whenever both of the response's expiration dates parse
(`dt_util.parse_datetime` succeeds).  The unamended, unconditional claim
fails — see `c7_pairing_invariant_counterexample`. -/
theorem c7_pairing_invariant :
    pairs_consistent (async_load_preferences none) ∧
    (∀ p : Prefs, pairs_consistent p →
      pairs_consistent (async_load_preferences (some p))) ∧
    (∀ (p : Prefs) (r : TokenResponse),
      r.accessTokenExpirationDate.isSome = true →
      r.refreshTokenExpirationDate.isSome = true →
      pairs_consistent (apply_token_response p r)) := by
  refine ⟨⟨rfl, rfl⟩, fun p hp => hp, ?_⟩
  intro p r ha hr
  unfold apply_token_response async_update_preferences pairs_consistent
  cases hae : r.accessTokenExpirationDate with
  | none => rw [hae] at ha; simp at ha
  | some ta =>
    cases hre : r.refreshTokenExpirationDate with
    | none => rw [hre] at hr; simp at hr
    | some tr => simp

theorem c7_pairing_invariant_witness :
    pairs_consistent (apply_token_response ⟨none, none, none, none⟩
      ⟨"A", some 1000, "R", some 2000⟩) :=
  c7_pairing_invariant.2.2 ⟨none, none, none, none⟩
    ⟨"A", some 1000, "R", some 2000⟩ rfl rfl

/-- Counterexample to the unamended C7: a token response whose access-token
expiration date does not parse (`dt_util.parse_datetime` at `api.py:120`
returns `None`) makes `_async_update_preferences` write `access_token` but
skip `access_expire_time`, so from the all-`None` state the access pair is
no longer set together. -/
theorem c7_pairing_invariant_counterexample :
    ¬ pairs_consistent (apply_token_response ⟨none, none, none, none⟩
      ⟨"A", none, "R", some 2000⟩) := by
  intro h
  have h1 := h.1
  simp [apply_token_response, async_update_preferences] at h1

/-! ### The HTTP request executor `_api_wrapper` -/

/-- The outcome of one attempted HTTP round trip inside `_api_wrapper`:
a response with its status and parsed JSON body (`none` when
`response.json()` fails), a timeout (`asyncio.TimeoutError`), or a
transport failure (`aiohttp.ClientError` / `socket.gaierror`). -/
inductive HttpOutcome where
  | resp (status : Nat) (body : Option Json)
  | timeout
  | transportError
deriving Repr

/-- Integral field lookup `d.get(key)` on a parsed JSON dict; non-integer
values are modelled as absent. -/
def jsonIntField (entries : List (String × Json)) (key : String) : Option Int :=
  match entries.lookup key with
  | some (Json.int n) => some n
  | _ => none

/-- The 429 body parse of `_api_wrapper`: `body.get("context", {})`, then
`context.get("rateLimitResponse", {})` when that is a dict, then the
`resetsIn` and `remaining` fields.  A `context` value that is present but
not a dict makes `context.get` raise `AttributeError` (caught by the broad
`except`), modelled as `Except.error`. -/
def parse_rate_limit (body : Option Json) :
    Except Unit (Option Int × Option Int) :=
  match body with
  | some (Json.obj entries) =>
      match entries.lookup "context" with
      | none => Except.ok (none, none)
      | some (Json.obj centries) =>
          match centries.lookup "rateLimitResponse" with
          | some (Json.obj rlentries) =>
              Except.ok (jsonIntField rlentries "resetsIn",
                jsonIntField rlentries "remaining")
          | _ => Except.ok (none, none)
      | some _ => Except.error ()
  | _ => Except.ok (none, none)

/-- Outcome of a `_api_wrapper` run: the raised error or returned JSON, the
value of `self._rate_limited_until` afterwards, and the number of HTTP
requests actually issued. -/
structure WrapperResult where
  result : Except MontaApiClientErrorKind Json
  rate_limited_until : Option Int
  requests : Nat
deriving Repr

/-- The `while True` retry loop of `_api_wrapper`.  `gate` is the current
`self._rate_limited_until`, `now` the current time (frozen during one run),
`oracle n` the outcome of the HTTP request issued on attempt `n`, and
`budget` the number of short retries still allowed
(`max_short_retries - attempt`, so `attempt < max_short_retries` iff
`budget ≠ 0`).  Status interpretation follows the source: 401/403 raise
`MontaApiClientAuthenticationError`; 429 parses the rate-limit body, sets
the gate to `now + resetsIn` when present, short-retries when
`resetsIn ≤ SHORT_RETRY_THRESHOLD_SECONDS` and budget remains, and raises
`MontaApiClientRateLimitError` otherwise; any other status ≥ 400 raises via
`raise_for_status` (a `ClientError`, hence a communication error); success
clears the gate and returns the body. -/
def api_wrapper_loop (oracle : Nat → HttpOutcome) (now : Int) :
    Option Int → Nat → Nat → WrapperResult
  | gate, attempt, budget =>
    match oracle attempt with
    | HttpOutcome.timeout =>
        ⟨Except.error MontaApiClientErrorKind.communicationError, gate, 1⟩
    | HttpOutcome.transportError =>
        ⟨Except.error MontaApiClientErrorKind.communicationError, gate, 1⟩
    | HttpOutcome.resp status body =>
        if status == 401 || status == 403 then
          ⟨Except.error MontaApiClientErrorKind.authenticationError, gate, 1⟩
        else if status == 429 then
          match parse_rate_limit body with
          | Except.error _ =>
              ⟨Except.error MontaApiClientErrorKind.genericError, gate, 1⟩
          | Except.ok (retry_after_seconds, remaining) =>
              match retry_after_seconds with
              | some r =>
                  if r ≤ SHORT_RETRY_THRESHOLD_SECONDS then
                    match budget with
                    | Nat.succ b =>
                        let rest :=
                          api_wrapper_loop oracle now (some (now + r))
                            (attempt + 1) b
                        ⟨rest.result, rest.rate_limited_until, rest.requests + 1⟩
                    | 0 =>
                        ⟨Except.error (MontaApiClientErrorKind.rateLimitError
                          (some r) (some (now + r)) remaining),
                          some (now + r), 1⟩
                  else
                    ⟨Except.error (MontaApiClientErrorKind.rateLimitError
                      (some r) (some (now + r)) remaining),
                      some (now + r), 1⟩
              | none =>
                  ⟨Except.error (MontaApiClientErrorKind.rateLimitError
                    none none remaining), gate, 1⟩
        else if 400 ≤ status then
          ⟨Except.error MontaApiClientErrorKind.communicationError, gate, 1⟩
        else
          match body with
          | some j => ⟨Except.ok j, none, 1⟩
          | none => ⟨Except.error MontaApiClientErrorKind.genericError, gate, 1⟩

/-- `_api_wrapper`: the rate-limit gate check at entry (short-circuit with
zero HTTP requests while unexpired, clear once expired), then the request
loop with the full short-retry budget. -/
def api_wrapper (gate : Option Int) (now : Int)
    (oracle : Nat → HttpOutcome) : WrapperResult :=
  match gate with
  | some t =>
      if now < t then
        ⟨Except.error (MontaApiClientErrorKind.rateLimitError
          (some (max (t - now) 1)) (some t) none), some t, 0⟩
      else
        api_wrapper_loop oracle now none 0 max_short_retries
  | none => api_wrapper_loop oracle now none 0 max_short_retries

/-- **C2.**  On a 429 whose parsed `resetsIn` is `r`: if
`r ≤ SHORT_RETRY_THRESHOLD_SECONDS` and retry budget remains, the wrapper
performs exactly one retry of the same request (one extra HTTP request, the
rest of the run continuing at the next attempt); if
`r > SHORT_RETRY_THRESHOLD_SECONDS` it fails immediately with a
`MontaApiClientRateLimitError` carrying `r` as `retry_after_seconds`. -/
theorem c2_short_retry_or_rate_limit_error (oracle : Nat → HttpOutcome)
    (now : Int) (gate : Option Int) (attempt budget : Nat)
    (body : Option Json) (r : Int) (rem : Option Int)
    (hresp : oracle attempt = HttpOutcome.resp 429 body)
    (hparse : parse_rate_limit body = Except.ok (some r, rem)) :
    (r ≤ SHORT_RETRY_THRESHOLD_SECONDS → 0 < budget →
      api_wrapper_loop oracle now gate attempt budget =
        { result :=
            (api_wrapper_loop oracle now (some (now + r)) (attempt + 1)
              (budget - 1)).result
          rate_limited_until :=
            (api_wrapper_loop oracle now (some (now + r)) (attempt + 1)
              (budget - 1)).rate_limited_until
          requests :=
            (api_wrapper_loop oracle now (some (now + r)) (attempt + 1)
              (budget - 1)).requests + 1 }) ∧
    (SHORT_RETRY_THRESHOLD_SECONDS < r →
      api_wrapper_loop oracle now gate attempt budget =
        ⟨Except.error (MontaApiClientErrorKind.rateLimitError (some r)
          (some (now + r)) rem), some (now + r), 1⟩) := by
  constructor
  · intro hle hb
    cases budget with
    | zero => omega
    | succ b =>
      rw [api_wrapper_loop, hresp]
      simp [hparse, hle]
  · intro hgt
    rw [api_wrapper_loop, hresp]
    have : ¬ r ≤ SHORT_RETRY_THRESHOLD_SECONDS := by omega
    simp [hparse, this]

/-- A 429 body with `resetsIn = 1`, `remaining = 0`. -/
def short_429_body : Json :=
  Json.obj [("context", Json.obj [("rateLimitResponse",
    Json.obj [("resetsIn", Json.int 1), ("remaining", Json.int 0)])])]

/-- A 429 body with `resetsIn = 25`, `remaining = 0`. -/
def long_429_body : Json :=
  Json.obj [("context", Json.obj [("rateLimitResponse",
    Json.obj [("resetsIn", Json.int 25), ("remaining", Json.int 0)])])]

/-- Oracle: first attempt is a short 429, every later attempt succeeds. -/
def c2_oracle : Nat → HttpOutcome := fun attempt =>
  match attempt with
  | 0 => HttpOutcome.resp 429 (some short_429_body)
  | _ + 1 => HttpOutcome.resp 200 (some (Json.obj []))

theorem c2_short_retry_or_rate_limit_error_witness :
    api_wrapper_loop c2_oracle 100 none 0 max_short_retries =
      ⟨Except.ok (Json.obj []), none, 2⟩ := by
  have h := (c2_short_retry_or_rate_limit_error c2_oracle 100 none 0
    max_short_retries (some short_429_body) 1 (some 0) rfl rfl).1
    (by decide) (by decide)
  rw [h]
  rfl

/-- **C3.**  While `_rate_limited_until` lies in the future, `_api_wrapper`
issues no HTTP request and fails immediately with a
`MontaApiClientRateLimitError` carrying the remaining seconds until the
gate expires; once `now` has passed the gate it proceeds with the gate
cleared; and a successful non-429 response always leaves the gate
cleared. -/
theorem c3_rate_limit_gate (gate : Option Int) (t now : Int)
    (oracle : Nat → HttpOutcome) :
    (gate = some t → now < t →
      api_wrapper gate now oracle =
        ⟨Except.error (MontaApiClientErrorKind.rateLimitError
          (some (max (t - now) 1)) (some t) none), some t, 0⟩) ∧
    (gate = some t → ¬ now < t →
      api_wrapper gate now oracle =
        api_wrapper_loop oracle now none 0 max_short_retries) ∧
    (∀ (g : Option Int) (attempt budget status : Nat) (j : Json),
      oracle attempt = HttpOutcome.resp status (some j) →
      (status == 401 || status == 403) = false →
      (status == 429) = false →
      ¬ 400 ≤ status →
      api_wrapper_loop oracle now g attempt budget =
        ⟨Except.ok j, none, 1⟩) := by
  refine ⟨?_, ?_, ?_⟩
  · intro hg hlt
    subst hg
    unfold api_wrapper
    simp [hlt]
  · intro hg hge
    subst hg
    unfold api_wrapper
    simp [hge]
  · intro g attempt budget status j hresp hauth h429 hok
    rw [api_wrapper_loop, hresp]
    simp [hauth, h429, hok]

theorem c3_rate_limit_gate_witness :
    api_wrapper (some 120) 100 (fun _ => HttpOutcome.resp 200
        (some (Json.obj []))) =
      ⟨Except.error (MontaApiClientErrorKind.rateLimitError (some 20)
        (some 120) none), some 120, 0⟩ := by
  have h := (c3_rate_limit_gate (some 120) 120 100
    (fun _ => HttpOutcome.resp 200 (some (Json.obj [])))).1 rfl (by decide)
  rw [h]
  rfl

/-! ### Domain operations -/

/-- `async_get_personal_wallet` — the shape shared by every domain
operation: obtain an access token through `async_get_access_token`, then
perform the authenticated wrapper call.  Returns the outcome together with
the token state afterwards (errors from either stage propagate and leave
the token state of that stage untouched). -/
def async_get_personal_wallet (prefs : Prefs) (now : Int)
    (refreshResp authResp : Except MontaApiClientErrorKind TokenResponse)
    (gate : Option Int) (oracle : Nat → HttpOutcome) :
    Except MontaApiClientErrorKind Json × Prefs :=
  match async_get_access_token prefs now refreshResp authResp with
  | (Except.error e, prefs1, _) => (Except.error e, prefs1)
  | (Except.ok _, prefs1, _) =>
      match (api_wrapper gate now oracle).result with
      | Except.error e => (Except.error e, prefs1)
      | Except.ok j => (Except.ok j, prefs1)

/-- **C4.**  A timeout or transport-level failure of the HTTP call makes
the operation fail with `MontaApiClientCommunicationError`, and the stored
token state is unchanged: the failing wrapper call itself performs no state
mutation (clause 1 and 2), a domain operation whose data call times out
after a cached-token fast path returns the token state untouched
(clause 3), and a token refresh whose network call fails leaves the stored
pair exactly as it was (clause 4). -/
theorem c4_timeout_communication_error :
    (∀ (oracle : Nat → HttpOutcome) (now : Int) (gate : Option Int)
      (attempt budget : Nat), oracle attempt = HttpOutcome.timeout →
      api_wrapper_loop oracle now gate attempt budget =
        ⟨Except.error MontaApiClientErrorKind.communicationError, gate, 1⟩) ∧
    (∀ (oracle : Nat → HttpOutcome) (now : Int) (gate : Option Int)
      (attempt budget : Nat), oracle attempt = HttpOutcome.transportError →
      api_wrapper_loop oracle now gate attempt budget =
        ⟨Except.error MontaApiClientErrorKind.communicationError, gate, 1⟩) ∧
    (∀ (prefs : Prefs) (now : Int)
      (refreshResp authResp : Except MontaApiClientErrorKind TokenResponse)
      (oracle : Nat → HttpOutcome),
      is_access_token_valid prefs now = true →
      oracle 0 = HttpOutcome.timeout →
      async_get_personal_wallet prefs now refreshResp authResp none oracle =
        (Except.error MontaApiClientErrorKind.communicationError, prefs)) ∧
    (∀ (prefs : Prefs) (now : Int)
      (authResp : Except MontaApiClientErrorKind TokenResponse),
      is_access_token_valid prefs now = false →
      is_refresh_token_valid prefs now = true →
      async_get_access_token prefs now
          (Except.error MontaApiClientErrorKind.communicationError) authResp =
        (Except.error MontaApiClientErrorKind.communicationError, prefs,
          [EndpointCall.authRefresh])) := by
  have h1 : ∀ (oracle : Nat → HttpOutcome) (now : Int) (gate : Option Int)
      (attempt budget : Nat), oracle attempt = HttpOutcome.timeout →
      api_wrapper_loop oracle now gate attempt budget =
        ⟨Except.error MontaApiClientErrorKind.communicationError, gate, 1⟩ := by
    intro oracle now gate attempt budget h
    rw [api_wrapper_loop, h]
  refine ⟨h1, ?_, ?_, ?_⟩
  · intro oracle now gate attempt budget h
    rw [api_wrapper_loop, h]
  · intro prefs now refreshResp authResp oracle hvalid htimeout
    have htok : async_get_access_token prefs now refreshResp authResp =
        (Except.ok (prefs.access_token.getD ""), prefs, []) := by
      unfold async_get_access_token
      rw [hvalid]
      simp
    have hwrap : api_wrapper none now oracle =
        ⟨Except.error MontaApiClientErrorKind.communicationError, none, 1⟩ :=
      h1 oracle now none 0 max_short_retries htimeout
    unfold async_get_personal_wallet
    rw [htok, hwrap]
  · intro prefs now authResp hinvalid hvalid
    unfold async_get_access_token
    rw [hinvalid, hvalid]
    rfl

theorem c4_timeout_communication_error_witness :
    async_get_personal_wallet ⟨some "A", some 1000, none, none⟩ 500
        (Except.error MontaApiClientErrorKind.genericError)
        (Except.error MontaApiClientErrorKind.genericError) none
        (fun _ => HttpOutcome.timeout) =
      (Except.error MontaApiClientErrorKind.communicationError,
        ⟨some "A", some 1000, none, none⟩) :=
  c4_timeout_communication_error.2.2.1 ⟨some "A", some 1000, none, none⟩ 500
    (Except.error MontaApiClientErrorKind.genericError)
    (Except.error MontaApiClientErrorKind.genericError)
    (fun _ => HttpOutcome.timeout) (by decide) rfl

/-! ### Response post-processing of the listing operations -/

/-- Python `d.get(key)` on a parsed JSON value: the result is `None` both
when the key is absent and when the stored value is JSON `null`; on a
non-dict receiver `.get` raises `AttributeError` (`Except.error`), which is
uncaught at these call sites. -/
def pyGet (j : Json) (key : String) : Except Unit (Option Json) :=
  match j with
  | Json.obj entries =>
      match entries.lookup key with
      | some Json.null => Except.ok none
      | some v => Except.ok (some v)
      | none => Except.ok none
  | _ => Except.error ()

/-- `item["id"]` as an integer; `none` models the subscript raising
(`KeyError`, or a non-integer id making the later arithmetic raise). -/
def itemId (item : Json) : Option Int :=
  match item with
  | Json.obj entries => jsonIntField entries "id"
  | _ => none

/-- Pair each item of a listing with its integral `"id"` (the keys computed
by the dict comprehension / the `sorted` key function); `none` when any
item lacks one. -/
def keyedById : List Json → Option (List (Int × Json))
  | [] => some []
  | item :: rest =>
      match itemId item, keyedById rest with
      | some k, some keyed => some ((k, item) :: keyed)
      | _, _ => none

/-- `response["data"]` as a list to iterate; `none` models `KeyError` or a
non-list value. -/
def dataItems (response : Json) : Option (List Json) :=
  match response with
  | Json.obj entries =>
      match entries.lookup "data" with
      | some (Json.arr items) => some items
      | _ => none
  | _ => none

/-- Insertion into a Python dict: an existing key is overwritten in place,
a new key is appended. -/
def pyDictInsert (acc : List (Int × Json)) (key : Int) (value : Json) :
    List (Int × Json) :=
  if acc.any (fun p => p.1 == key) then
    acc.map (fun p => if p.1 == key then (key, value) else p)
  else
    acc ++ [(key, value)]

/-- The dict comprehension of `async_get_charge_points`:
`{item["id"]: item for item in data if item.get("serialNumber") is not None}`,
built left to right into `acc`. -/
def charge_points_fold : List Json → List (Int × Json) →
    Option (List (Int × Json))
  | [], acc => some acc
  | item :: rest, acc =>
      match pyGet item "serialNumber" with
      | Except.error _ => none
      | Except.ok serial =>
          if serial.isSome then
            match itemId item with
            | some k => charge_points_fold rest (pyDictInsert acc k item)
            | none => none
          else
            charge_points_fold rest acc

/-- The comprehension filter `item.get("serialNumber") is not None`, for an
item on which the `.get` call does not raise. -/
def has_serial_number (item : Json) : Bool :=
  match pyGet item "serialNumber" with
  | Except.ok (some _) => true
  | _ => false

/-- `async_get_charge_points` response post-processing. -/
def async_get_charge_points (response : Json) :
    Option (List (Int × Json)) :=
  match dataItems response with
  | some items => charge_points_fold items []
  | none => none

theorem pyDictInsert_of_not_mem (acc : List (Int × Json)) (k : Int)
    (v : Json) (h : k ∉ acc.map Prod.fst) :
    pyDictInsert acc k v = acc ++ [(k, v)] := by
  unfold pyDictInsert
  have hany : acc.any (fun p => p.1 == k) = false := by
    rw [List.any_eq_false]
    intro p hp
    simp only [beq_iff_eq]
    intro hk
    exact h (hk ▸ List.mem_map_of_mem Prod.fst hp)
  rw [hany]
  simp

theorem charge_points_fold_eq (items : List Json) :
    ∀ acc keyed : List (Int × Json),
    (∀ item ∈ items, ∃ v, pyGet item "serialNumber" = Except.ok v) →
    keyedById (items.filter has_serial_number) = some keyed →
    (acc.map Prod.fst ++ keyed.map Prod.fst).Nodup →
    charge_points_fold items acc = some (acc ++ keyed) := by
  induction items with
  | nil =>
    intro acc keyed _ hk _
    simp only [List.filter_nil, keyedById, Option.some.injEq] at hk
    subst hk
    simp [charge_points_fold]
  | cons item rest ih =>
    intro acc keyed hok hk hnd
    obtain ⟨v, hv⟩ := hok item (List.mem_cons_self item rest)
    have hrest : ∀ it ∈ rest, ∃ w, pyGet it "serialNumber" = Except.ok w :=
      fun it hit => hok it (List.mem_cons_of_mem item hit)
    cases v with
    | some sv =>
      have hs : has_serial_number item = true := by
        unfold has_serial_number
        rw [hv]
      simp only [List.filter_cons, hs, if_true] at hk
      cases hid : itemId item with
      | none => rw [keyedById, hid] at hk; simp at hk
      | some k =>
        cases hkr : keyedById (rest.filter has_serial_number) with
        | none => rw [keyedById, hid, hkr] at hk; simp at hk
        | some keyed' =>
          rw [keyedById, hid, hkr] at hk
          simp only [Option.some.injEq] at hk
          subst hk
          have hknotin : k ∉ acc.map Prod.fst := by
            intro hmem
            rcases List.nodup_append.mp (by
                simpa using hnd) with ⟨_, _, hdisj⟩
            exact hdisj hmem (by simp)
          simp only [charge_points_fold, hv, Option.isSome_some, if_true, hid]
          rw [pyDictInsert_of_not_mem acc k item hknotin]
          have hnd' : ((acc ++ [(k, item)]).map Prod.fst ++
              keyed'.map Prod.fst).Nodup := by
            simpa [List.append_assoc] using hnd
          rw [ih (acc ++ [(k, item)]) keyed' hrest hkr hnd']
          simp
    | none =>
      have hs : has_serial_number item = false := by
        unfold has_serial_number
        rw [hv]
      simp only [List.filter_cons, hs, if_false, Bool.false_eq_true] at hk
      simp only [charge_points_fold, hv, Option.isSome_none, if_false,
        Bool.false_eq_true]
      exact ih acc keyed hrest hk (by simpa using hnd)

/-- **C6.**  The result of `async_get_charge_points` contains exactly the
listed entries whose `serialNumber` is present and non-null, keyed by id
(assuming every listed entry is a JSON object — otherwise the comprehension
raises `AttributeError` — and that the ids are pairwise distinct, as server
ids are); entries lacking a serial number are filtered out. -/
theorem c6_serial_number_filter (response : Json) (items : List Json)
    (keyed : List (Int × Json))
    (hdata : dataItems response = some items)
    (hok : ∀ item ∈ items, ∃ v, pyGet item "serialNumber" = Except.ok v)
    (hkeyed : keyedById (items.filter has_serial_number) = some keyed)
    (hnodup : (keyed.map Prod.fst).Nodup) :
    async_get_charge_points response = some keyed := by
  unfold async_get_charge_points
  rw [hdata]
  have h := charge_points_fold_eq items [] keyed hok hkeyed
    (by simpa using hnodup)
  simpa using h

/-- The spec's scenario: charge point 1 has a serial number, charge point 2
has `serialNumber: null`. -/
def cp_item1 : Json := Json.obj [("id", Json.int 1), ("serialNumber", Json.str "SN1")]

/-- The placeholder entry of the spec's scenario. -/
def cp_item2 : Json := Json.obj [("id", Json.int 2), ("serialNumber", Json.null)]

theorem c6_serial_number_filter_witness :
    async_get_charge_points
        (Json.obj [("data", Json.arr [cp_item1, cp_item2])]) =
      some [(1, cp_item1)] :=
  c6_serial_number_filter (Json.obj [("data", Json.arr [cp_item1, cp_item2])])
    [cp_item1, cp_item2] [(1, cp_item1)] rfl
    (by
      intro item hmem
      rcases List.mem_cons.mp hmem with h | h
      · exact ⟨some (Json.str "SN1"), by rw [h]; rfl⟩
      · rcases List.mem_cons.mp h with h2 | h2
        · exact ⟨none, by rw [h2]; rfl⟩
        · exact absurd h2 (List.not_mem_nil item))
    rfl (by simp)

/-- Ordering used by `sorted(..., key=lambda x: -x["id"])`: ascending in
the key `-id`, hence descending in `id`. -/
def descById (a b : Int × Json) : Prop := -a.1 ≤ -b.1

instance : DecidableRel descById :=
  fun a b => inferInstanceAs (Decidable (-a.1 ≤ -b.1))

instance : IsTotal (Int × Json) descById :=
  ⟨fun a b => le_total (-a.1) (-b.1)⟩

instance : IsTrans (Int × Json) descById :=
  ⟨fun _ _ _ h1 h2 => le_trans h1 h2⟩

/-- `sorted(entries, key=lambda e: -e["id"])` as a stable sort over the
decorated list; every entry must carry an integral `"id"` (otherwise the
key function raises). -/
def sorted_desc_by_id (entries : List Json) : Option (List Json) :=
  match keyedById entries with
  | none => none
  | some keyed => some ((List.insertionSort descById keyed).map Prod.snd)

/-- `async_get_charges` response post-processing: `response.get("data")`,
replaced by `[]` when absent or `None`, then sorted by descending id. -/
def async_get_charges (response : Json) : Option (List Json) :=
  match pyGet response "data" with
  | Except.error _ => none
  | Except.ok none => sorted_desc_by_id []
  | Except.ok (some (Json.arr items)) => sorted_desc_by_id items
  | Except.ok (some _) => none

/-- `async_get_wallet_transactions` response post-processing — the same
logic as `async_get_charges`. -/
def async_get_wallet_transactions (response : Json) : Option (List Json) :=
  match pyGet response "data" with
  | Except.error _ => none
  | Except.ok none => sorted_desc_by_id []
  | Except.ok (some (Json.arr items)) => sorted_desc_by_id items
  | Except.ok (some _) => none

/-- **C5.**  For every server-provided listing (with pairwise-distinct
entry ids, as server ids are), `async_get_charges` and
`async_get_wallet_transactions` return a permutation of the parsed entries
whose ids are strictly descending (most recent first), whatever the
server's order. -/
theorem c5_sorted_descending_id (response : Json) (items : List Json)
    (keyed : List (Int × Json))
    (hdata : pyGet response "data" = Except.ok (some (Json.arr items)))
    (hkeyed : keyedById items = some keyed)
    (hnodup : (keyed.map Prod.fst).Nodup) :
    async_get_charges response =
      some ((List.insertionSort descById keyed).map Prod.snd) ∧
    async_get_wallet_transactions response =
      some ((List.insertionSort descById keyed).map Prod.snd) ∧
    List.Perm (List.insertionSort descById keyed) keyed ∧
    ((List.insertionSort descById keyed).map Prod.fst).Sorted (· > ·) := by
  refine ⟨?_, ?_, List.perm_insertionSort descById keyed, ?_⟩
  · unfold async_get_charges
    rw [hdata]
    show sorted_desc_by_id items = _
    unfold sorted_desc_by_id
    rw [hkeyed]
  · unfold async_get_wallet_transactions
    rw [hdata]
    show sorted_desc_by_id items = _
    unfold sorted_desc_by_id
    rw [hkeyed]
  · have hsorted : (List.insertionSort descById keyed).Pairwise descById :=
      List.sorted_insertionSort descById keyed
    have hge : ((List.insertionSort descById keyed).map Prod.fst).Pairwise
        (fun a b : Int => b ≤ a) :=
      List.Pairwise.map Prod.fst (fun a b (h : -a.1 ≤ -b.1) => by omega) hsorted
    have hperm : List.Perm ((List.insertionSort descById keyed).map Prod.fst)
        (keyed.map Prod.fst) :=
      (List.perm_insertionSort descById keyed).map Prod.fst
    have hnd : ((List.insertionSort descById keyed).map Prod.fst).Nodup :=
      (hperm.nodup_iff).mpr hnodup
    have hand := List.Pairwise.and hge hnd
    exact hand.imp (fun h => lt_of_le_of_ne h.1 (Ne.symm h.2))

/-- Charge with id 100 from the spec's scenario. -/
def charge100 : Json := Json.obj [("id", Json.int 100)]

/-- Charge with id 105 from the spec's scenario. -/
def charge105 : Json := Json.obj [("id", Json.int 105)]

theorem c5_sorted_descending_id_witness :
    async_get_charges (Json.obj [("data", Json.arr [charge100, charge105])]) =
        some ((List.insertionSort descById
          [(100, charge100), (105, charge105)]).map Prod.snd) ∧
    async_get_wallet_transactions
        (Json.obj [("data", Json.arr [charge100, charge105])]) =
        some ((List.insertionSort descById
          [(100, charge100), (105, charge105)]).map Prod.snd) ∧
    List.Perm (List.insertionSort descById [(100, charge100), (105, charge105)])
      [(100, charge100), (105, charge105)] ∧
    ((List.insertionSort descById
      [(100, charge100), (105, charge105)]).map Prod.fst).Sorted (· > ·) :=
  c5_sorted_descending_id
    (Json.obj [("data", Json.arr [charge100, charge105])])
    [charge100, charge105] [(100, charge100), (105, charge105)]
    rfl rfl (by simp)

/-- **C10.**  When the JSON response lacks the `"data"` field (or it is
null), `async_get_charges` and `async_get_wallet_transactions` return the
empty list instead of raising. -/
theorem c10_missing_data_empty_list (response : Json)
    (h : pyGet response "data" = Except.ok none) :
    async_get_charges response = some [] ∧
    async_get_wallet_transactions response = some [] := by
  unfold async_get_charges async_get_wallet_transactions
  rw [h]
  exact ⟨rfl, rfl⟩

theorem c10_missing_data_empty_list_witness :
    async_get_charges (Json.obj [("data", Json.null)]) = some [] ∧
    async_get_wallet_transactions (Json.obj [("data", Json.null)]) =
      some [] :=
  c10_missing_data_empty_list (Json.obj [("data", Json.null)]) rfl

/-! ### Log redaction -/

/-- `isinstance(value, dict | list)`. -/
def isComposite : Json → Bool
  | Json.obj _ => true
  | Json.arr _ => true
  | _ => false

/-- Python `str(...)` of a scalar value (`None`, booleans, integers,
strings).  The redaction filter only stringifies scalars, so the composite
branches (unreachable from it) map to `""`. -/
def pyStr : Json → String
  | Json.null => "None"
  | Json.bool true => "True"
  | Json.bool false => "False"
  | Json.int n => toString n
  | Json.str s => s
  | Json.arr _ => ""
  | Json.obj _ => ""

/-- `"*" * len(str(value))`. -/
def maskOf (value : Json) : Json :=
  Json.str (String.mk (List.replicate (pyStr value).length '*'))

mutual

/-- `_filter_private_information`: dicts are rebuilt with nested dicts and
lists filtered recursively and scalar values masked when their key is in
`PRIVATE_INFORMATION`; lists are filtered element-wise; any other value
passes through. -/
def filter_private_information : Json → Json
  | Json.obj entries => Json.obj (filter_private_entries entries)
  | Json.arr items => Json.arr (filter_private_items items)
  | j => j

/-- The `for key, value in data.items()` loop of
`_filter_private_information`. -/
def filter_private_entries : List (String × Json) → List (String × Json)
  | [] => []
  | (key, value) :: rest =>
      (key,
        if isComposite value then filter_private_information value
        else if key ∈ PRIVATE_INFORMATION then maskOf value
        else value) :: filter_private_entries rest

/-- The list branch of `_filter_private_information`. -/
def filter_private_items : List Json → List Json
  | [] => []
  | item :: rest =>
      filter_private_information item :: filter_private_items rest

end

mutual

/-- Redaction as the spec words it: each scalar value whose key is in the
private-information list is replaced by a mask of `*` characters of the
same length as the value string form, every other scalar is left
unchanged, and nested dicts and lists are traversed preserving the
structure. -/
def redact_spec : Json → Json
  | Json.obj entries => Json.obj (redact_spec_entries entries)
  | Json.arr items => Json.arr (redact_spec_items items)
  | j => j

/-- Dict traversal of `redact_spec`. -/
def redact_spec_entries : List (String × Json) → List (String × Json)
  | [] => []
  | (key, value) :: rest =>
      (key,
        if isComposite value then redact_spec value
        else if key ∈ PRIVATE_INFORMATION then
          Json.str (String.mk (List.replicate (pyStr value).length '*'))
        else value) :: redact_spec_entries rest

/-- List traversal of `redact_spec`. -/
def redact_spec_items : List Json → List Json
  | [] => []
  | item :: rest => redact_spec item :: redact_spec_items rest

end

/-- The structural skeleton of a JSON value: scalar payloads erased, keys
and nesting kept. -/
inductive JsonShape where
  | scalar
  | arr (items : List JsonShape)
  | obj (entries : List (String × JsonShape))
deriving Repr

mutual

/-- Erase scalar payloads, keep keys and nesting. -/
def jsonShape : Json → JsonShape
  | Json.obj entries => JsonShape.obj (jsonShapeEntries entries)
  | Json.arr items => JsonShape.arr (jsonShapeItems items)
  | _ => JsonShape.scalar

/-- Dict traversal of `jsonShape`. -/
def jsonShapeEntries : List (String × Json) → List (String × JsonShape)
  | [] => []
  | (key, value) :: rest => (key, jsonShape value) :: jsonShapeEntries rest

/-- List traversal of `jsonShape`. -/
def jsonShapeItems : List Json → List JsonShape
  | [] => []
  | item :: rest => jsonShape item :: jsonShapeItems rest

end

theorem jsonShape_of_not_composite (v : Json) (h : isComposite v = false) :
    jsonShape v = JsonShape.scalar := by
  cases v <;> first | rfl | simp [isComposite] at h

mutual

theorem filter_eq_redact_spec : ∀ j : Json,
    filter_private_information j = redact_spec j
  | Json.null => rfl
  | Json.bool _ => rfl
  | Json.int _ => rfl
  | Json.str _ => rfl
  | Json.arr items => by
      rw [filter_private_information, redact_spec, filter_items_eq items]
  | Json.obj entries => by
      rw [filter_private_information, redact_spec, filter_entries_eq entries]

theorem filter_entries_eq : ∀ entries : List (String × Json),
    filter_private_entries entries = redact_spec_entries entries
  | [] => rfl
  | (key, value) :: rest => by
      rw [filter_private_entries, redact_spec_entries,
        filter_entries_eq rest, filter_eq_redact_spec value]
      rfl

theorem filter_items_eq : ∀ items : List Json,
    filter_private_items items = redact_spec_items items
  | [] => rfl
  | item :: rest => by
      rw [filter_private_items, redact_spec_items, filter_items_eq rest,
        filter_eq_redact_spec item]

end

mutual

theorem shape_filter : ∀ j : Json,
    jsonShape (filter_private_information j) = jsonShape j
  | Json.null => rfl
  | Json.bool _ => rfl
  | Json.int _ => rfl
  | Json.str _ => rfl
  | Json.arr items => by
      rw [filter_private_information, jsonShape, shape_filter_items items]
      rfl
  | Json.obj entries => by
      rw [filter_private_information, jsonShape, shape_filter_entries entries]
      rfl

theorem shape_filter_entries : ∀ entries : List (String × Json),
    jsonShapeEntries (filter_private_entries entries) =
      jsonShapeEntries entries
  | [] => rfl
  | (key, value) :: rest => by
      rw [filter_private_entries, jsonShapeEntries,
        shape_filter_entries rest]
      by_cases hc : isComposite value = true
      · rw [if_pos hc, shape_filter value, jsonShapeEntries]
      · simp only [Bool.not_eq_true] at hc
        by_cases hp : key ∈ PRIVATE_INFORMATION
        · have h1 : jsonShape (maskOf value) = JsonShape.scalar := rfl
          rw [if_neg (by simp [hc]), if_pos hp, h1, jsonShapeEntries,
            jsonShape_of_not_composite value hc]
        · rw [if_neg (by simp [hc]), if_neg hp, jsonShapeEntries]

theorem shape_filter_items : ∀ items : List Json,
    jsonShapeItems (filter_private_items items) = jsonShapeItems items
  | [] => rfl
  | item :: rest => by
      rw [filter_private_items, jsonShapeItems, jsonShapeItems,
        shape_filter_items rest, shape_filter item]

end

/-- **C8.**  The log-redaction filter computes exactly the spec redaction:
each scalar value under a private-information key becomes a mask of `*`
characters of the same length as the value string form, every other scalar
is unchanged, and the nesting structure (keys, list lengths) is preserved;
the mask really is an all-`*` string of the right length. -/
theorem c8_private_information_redaction (j : Json) :
    filter_private_information j = redact_spec j ∧
    jsonShape (filter_private_information j) = jsonShape j ∧
    ∀ value : Json, ∃ s : String,
      maskOf value = Json.str s ∧
      s.length = (pyStr value).length ∧
      s.toList.all (fun c => c == Char.ofNat 42) = true := by
  refine ⟨filter_eq_redact_spec j, shape_filter j, ?_⟩
  intro value
  refine ⟨String.mk (List.replicate (pyStr value).length (Char.ofNat 42)),
    rfl, ?_, ?_⟩
  · show (List.replicate (pyStr value).length (Char.ofNat 42)).length =
      (pyStr value).length
    exact List.length_replicate _ _
  · show (List.replicate (pyStr value).length (Char.ofNat 42)).all
      (fun c => c == Char.ofNat 42) = true
    rw [List.all_eq_true]
    intro c hc
    rw [List.eq_of_mem_replicate hc]
    exact beq_self_eq_true _

/-! ### Concurrency: the token stampede -/

/-- `n` simultaneous callers of `async_get_access_token` on one client
instance.  The per-instance `asyncio.Lock` (`self._get_token_lock`) is held
for the whole decide-and-possibly-refresh sequence, so the stampede
executes as `n` sequential critical sections over the shared token state;
all callers share the same network oracles.  Returns the final token state
and the concatenated list of token-endpoint calls issued. -/
def run_callers (now : Int)
    (refreshResp authResp : Except MontaApiClientErrorKind TokenResponse) :
    Nat → Prefs → Prefs × List EndpointCall
  | 0, prefs => (prefs, [])
  | Nat.succ n, prefs =>
      let first := async_get_access_token prefs now refreshResp authResp
      let rest := run_callers now refreshResp authResp n first.2.1
      (rest.1, first.2.2 ++ rest.2)

theorem valid_after_apply (prefs : Prefs) (now : Int) (r : TokenResponse)
    (te : Int) (htok : r.accessToken.isEmpty = false)
    (hexp : r.accessTokenExpirationDate = some te)
    (hte : now < te - PREEMPTIVE_REFRESH_TTL_IN_SECONDS) :
    is_access_token_valid (apply_token_response prefs r) now = true := by
  have h1 : (apply_token_response prefs r).access_token = some r.accessToken := by
    simp [apply_token_response, async_update_preferences]
  have h2 : (apply_token_response prefs r).access_expire_time = some te := by
    simp [apply_token_response, async_update_preferences, hexp]
  unfold is_access_token_valid
  rw [h1, h2]
  simp [pyTruthy, htok]
  omega

theorem run_callers_of_valid (now : Int)
    (refreshResp authResp : Except MontaApiClientErrorKind TokenResponse) :
    ∀ (n : Nat) (prefs : Prefs), is_access_token_valid prefs now = true →
    run_callers now refreshResp authResp n prefs = (prefs, []) := by
  intro n
  induction n with
  | zero => intro prefs _; rfl
  | succ m ih =>
    intro prefs hv
    have hfirst : async_get_access_token prefs now refreshResp authResp =
        (Except.ok (prefs.access_token.getD ""), prefs, []) := by
      unfold async_get_access_token
      rw [hv]
      simp
    rw [run_callers, hfirst]
    simp [ih prefs hv]

/-- **C9.**  A stampede of `n ≥ 1` simultaneous callers of
`async_get_access_token` while no valid access token is stored, serialized
by the per-instance token lock, issues exactly one token-endpoint call
(one refresh or one full authentication), not `n` — provided the freshly
minted token is itself valid at the current time. -/
theorem c9_stampede_single_call (prefs : Prefs) (now : Int)
    (r rr : TokenResponse) (te tr : Int) (n : Nat)
    (hn : 0 < n)
    (hinvalid : is_access_token_valid prefs now = false)
    (hatok : r.accessToken.isEmpty = false)
    (haexp : r.accessTokenExpirationDate = some te)
    (hate : now < te - PREEMPTIVE_REFRESH_TTL_IN_SECONDS)
    (hrtok : rr.accessToken.isEmpty = false)
    (hrexp : rr.accessTokenExpirationDate = some tr)
    (hrte : now < tr - PREEMPTIVE_REFRESH_TTL_IN_SECONDS) :
    ((run_callers now (Except.ok rr) (Except.ok r) n prefs).2).length = 1 := by
  cases n with
  | zero => omega
  | succ m =>
    rw [run_callers]
    by_cases hr : is_refresh_token_valid prefs now = true
    · have hfirst : async_get_access_token prefs now (Except.ok rr)
          (Except.ok r) = (Except.ok rr.accessToken,
            apply_token_response prefs rr, [EndpointCall.authRefresh]) := by
        unfold async_get_access_token
        rw [hinvalid, hr]
        simp
      rw [hfirst]
      have hv := valid_after_apply prefs now rr tr hrtok hrexp hrte
      simp [run_callers_of_valid now (Except.ok rr) (Except.ok r) m _ hv]
    · have hrf : is_refresh_token_valid prefs now = false := by
        simpa using hr
      have hfirst : async_get_access_token prefs now (Except.ok rr)
          (Except.ok r) = (Except.ok r.accessToken,
            apply_token_response prefs r, [EndpointCall.authToken]) := by
        unfold async_get_access_token
        rw [hinvalid, hrf]
        simp
      rw [hfirst]
      have hv := valid_after_apply prefs now r te hatok haexp hate
      simp [run_callers_of_valid now (Except.ok rr) (Except.ok r) m _ hv]

theorem c9_stampede_single_call_witness :
    ((run_callers 0 (Except.ok ⟨"A", some 1000, "R", some 2000⟩)
      (Except.ok ⟨"A", some 1000, "R", some 2000⟩) 3
      ⟨none, none, none, none⟩).2).length = 1 :=
  c9_stampede_single_call ⟨none, none, none, none⟩ 0
    ⟨"A", some 1000, "R", some 2000⟩ ⟨"A", some 1000, "R", some 2000⟩
    1000 1000 3 (by decide) (by decide) (by decide) rfl (by decide)
    (by decide) rfl (by decide)

end Monta
